import Mathlib

/-!
Shallow embedding of the scoring / weekly-trend core of the
`kpop-artist-scoring` repository, together with proofs of the claims
about it.

Sources embedded:
  * `src/utils/scoring.py` — `calculate_artist_score`,
    `_calculate_follower_score`, `batch_calculate_scores`
  * `src/analytics/weekly_score_tracker.py` — `WeeklyScoreTracker.
    calculate_weekly_scores / compare_weekly_scores /
    generate_weekly_trends / get_top_gainers_losers /
    generate_weekly_summary`
  * `src/config.py` — `SCORING_CONFIG`

Modelling conventions:
  * Python floats are modelled as exact rationals (`ℚ`); `round(x, 2)`
    is modelled as rounding `x * 100` to the nearest integer (Python
    uses round-half-to-even on binary floats, the model rounds half up
    on rationals; the two agree except at exact half-cent ties, which
    none of the proved properties depend on).
  * A pandas cell that may be absent or NaN is modelled as `Option ℚ`
    (`none` = missing key or NaN); `row.get(key, 0)` on a missing key
    is reflected in the handling of `none`.
  * A Python `dict` of weights whose keys may be missing is a structure
    of `Option ℚ` fields; `weights[key]` on a missing key raises
    `KeyError`, modelled as `Except.error`.  The `try/except` body of
    `calculate_artist_score` is the `Except`-valued `scoreBody`; the
    surrounding handler maps any error to the score `0`.
  * Python `None`-or-DataFrame arguments/results are `Option (List _)`.
  * File discovery, CSV reading/writing and JSON dumping are I/O owned
    by external collaborators; the aggregator is embedded as a function
    of the already-loaded list of weekly tables.
-/

/-! ### Data model -/

/-- One artist's raw metric row (`ArtistMetricRecord`): the columns of a
weekly CSV that `calculate_artist_score` reads.  `none` models a missing
or NaN cell. -/
structure ArtistMetricRecord where
  artist : String
  entertainment : String
  popularity : Option ℚ
  instagram_followers : Option ℚ
  twitter_followers : Option ℚ
  spotify_followers : Option ℚ
  deriving Repr, DecidableEq

/-- A weight mapping (`custom_weights` / default dict in
`calculate_artist_score`).  A `none` field models a dict missing that
key, so that looking it up raises `KeyError`. -/
structure Weights where
  spotify_popularity : Option ℚ
  instagram_followers : Option ℚ
  twitter_followers : Option ℚ
  spotify_followers : Option ℚ
  deriving Repr, DecidableEq

/-- `SCORING_CONFIG` defaults from `src/config.py` (used when
`custom_weights` is not supplied). -/
def defaultWeights : Weights :=
  { spotify_popularity := some (3/10)
    instagram_followers := some (1/4)
    twitter_followers := some (1/5)
    spotify_followers := some (1/4) }

/-- `SCORING_CONFIG['min_score']`. -/
def min_score : ℚ := 0

/-- `SCORING_CONFIG['max_score']`. -/
def max_score : ℚ := 100

/-- `weights = custom_weights or {...defaults...}` (line 27 of
`scoring.py`).  (A Python caller passing a literally empty dict would
also fall back to the defaults, `{}` being falsy; an empty dict carries
no weight keys, so no claim distinguishes the two readings.) -/
def resolveWeights : Option Weights → Weights
  | some w => w
  | none => defaultWeights

/-- `weights[key]`: `KeyError` on a missing key, modelled in `Except`. -/
def lookupW (w : Option ℚ) : Except String ℚ :=
  match w with
  | some v => .ok v
  | none => .error "KeyError"

/-! ### Score Calculator (`src/utils/scoring.py`) -/

/-- `_calculate_follower_score(followers, 10_000_000)`:
`0.0` when the cell is missing/NaN/non-positive, otherwise
`min(100.0, followers / 10_000_000 * 100)`. -/
def _calculate_follower_score (followers : Option ℚ) : ℚ :=
  match followers with
  | none => 0
  | some f => if f ≤ 0 then 0 else min 100 (f / 10000000 * 100)

/-- Python `round(x, 2)` on the model's rationals. -/
def round2 (q : ℚ) : ℚ := (round (q * 100) : ℤ) / 100

/-- The body of the `try:` block of `calculate_artist_score` (lines
37-65 of `scoring.py`): popularity term (weight looked up only when
`popularity` is present, mirroring the `pd.notna` guard), the three
follower terms, clamp to `[min_score, max_score]`, round to 2 decimals.
Raising `KeyError` on a missing weight key is the `Except.error` path. -/
def scoreBody (row : ArtistMetricRecord) (weights : Weights) : Except String ℚ :=
  (match row.popularity with
    | some p => (lookupW weights.spotify_popularity).map (fun wp => 0 + p * wp)
    | none => .ok 0).bind (fun s1 =>
  (lookupW weights.instagram_followers).bind (fun wi =>
  let s2 := s1 + _calculate_follower_score row.instagram_followers * wi
  (lookupW weights.twitter_followers).bind (fun wt =>
  let s3 := s2 + _calculate_follower_score row.twitter_followers * wt
  (lookupW weights.spotify_followers).bind (fun ws =>
  let s4 := s3 + _calculate_follower_score row.spotify_followers * ws
  .ok (round2 (max min_score (min max_score s4)))))))

/-- `calculate_artist_score(row, custom_weights)`: run the body; the
`except Exception` handler turns any raised error into `0.0`. -/
def calculate_artist_score (row : ArtistMetricRecord)
    (custom_weights : Option Weights := none) : ℚ :=
  match scoreBody row (resolveWeights custom_weights) with
  | .ok v => v
  | .error _ => 0

/-- A scored row: the metric row plus the attached `total_score` column
(the fields of the row that the comparator later reads). -/
structure ScoredRecord where
  artist : String
  entertainment : String
  total_score : ℚ
  deriving Repr, DecidableEq

/-- `batch_calculate_scores(df)` /
`WeeklyScoreTracker.calculate_weekly_scores(df)`: apply
`calculate_artist_score` (with default weights) to every row, attaching
`total_score`; input order preserved, one output row per input row. -/
def batch_calculate_scores (df : List ArtistMetricRecord) : List ScoredRecord :=
  df.map (fun r => { artist := r.artist, entertainment := r.entertainment,
                     total_score := calculate_artist_score r })

/-! ### Snapshot Comparator
(`WeeklyScoreTracker.compare_weekly_scores`, lines 61-100 of
`weekly_score_tracker.py`).  Artist names are assumed unique within a
snapshot (the spec's primary-key invariant); under that assumption the
pandas `set_index`/`[]` lookups and `df[df['artist'] == a].iloc[0]` both
denote the first (only) row with that name, modelled by `find?`. -/

/-- A row of the comparison table built for one common artist. -/
structure TrendRecord where
  artist : String
  entertainment : String
  current_score : ℚ
  previous_score : ℚ
  score_change : ℚ
  change_rate : ℚ
  trend : String
  deriving Repr, DecidableEq

/-- First row of a snapshot carrying a given artist name. -/
def findRecord (df : List ScoredRecord) (a : String) : Option ScoredRecord :=
  df.find? (fun r => r.artist == a)

/-- Lines 82-85: `((current - previous) / previous) * 100` when
`previous_score > 0`, else `0` when `current_score == 0`, else `100`. -/
def changeRate (current_score previous_score : ℚ) : ℚ :=
  if 0 < previous_score then ((current_score - previous_score) / previous_score) * 100
  else if current_score = 0 then 0 else 100

/-- Line 97: `'up' if change_rate > 0 else 'down' if change_rate < 0
else 'stable'`. -/
def trendOf (change_rate : ℚ) : String :=
  if 0 < change_rate then "up" else if change_rate < 0 then "down" else "stable"

/-- One entry of `comparison_data` (lines 90-98): scores read from the
two snapshots, `entertainment` from the current snapshot's row. -/
def mkTrendRecord (c p : ScoredRecord) : TrendRecord :=
  { artist := c.artist
    entertainment := c.entertainment
    current_score := c.total_score
    previous_score := p.total_score
    score_change := c.total_score - p.total_score
    change_rate := changeRate c.total_score p.total_score
    trend := trendOf (changeRate c.total_score p.total_score) }

/-- Line 71: `current_scores.index.intersection(previous_scores.index)`
— the current snapshot's artist names (deduplicated) that also occur in
the previous snapshot. -/
def commonArtists (cur prev : List ScoredRecord) : List String :=
  ((cur.map (fun r => r.artist)).dedup).filter
    (fun a => (prev.map (fun r => r.artist)).contains a)

/-- `compare_weekly_scores(current_df, previous_df)`: `None` when either
input is `None` (lines 63-64) or when there is no common artist (lines
73-74); otherwise one `TrendRecord` per common artist. -/
def compare_weekly_scores (current_df previous_df : Option (List ScoredRecord)) :
    Option (List TrendRecord) :=
  match current_df, previous_df with
  | some cur, some prev =>
    let common := commonArtists cur prev
    if common.isEmpty then none
    else some (common.filterMap (fun a =>
      match findRecord cur a, findRecord prev a with
      | some c, some p => some (mkTrendRecord c p)
      | _, _ => none))
  | _, _ => none

/-! ### Trend Aggregator
(`WeeklyScoreTracker.generate_weekly_trends` /
`get_top_gainers_losers` / `generate_weekly_summary`).  File discovery
and CSV loading are I/O owned by collaborators; the aggregator is
embedded over the already-loaded, date-sorted list of weekly files. -/

/-- One entry of `file_data` together with its loaded rows: the week
label, the formatted collection date, and the CSV contents. -/
structure WeeklyFile where
  week : String
  date : String
  data : List ArtistMetricRecord
  deriving Repr, DecidableEq

/-- A `TrendRecord` tagged with the pair's week/date labels (lines
132-135). -/
structure TaggedTrendRecord extends TrendRecord where
  current_week : String
  previous_week : String
  current_date : String
  previous_date : String
  deriving Repr, DecidableEq

/-- Tag every row of one comparison with its pair's labels. -/
def tagTrend (cur prev : WeeklyFile) (tr : TrendRecord) : TaggedTrendRecord :=
  { toTrendRecord := tr
    current_week := cur.week
    previous_week := prev.week
    current_date := cur.date
    previous_date := prev.date }

/-- The index pairs walked by `for i in range(1, len(file_data))`:
`(file_data[i-1], file_data[i])` for `i = 1..n-1`. -/
def consecutivePairs {α : Type} : List α → List (α × α)
  | a :: b :: rest => (a, b) :: consecutivePairs (b :: rest)
  | _ => []

/-- One loop iteration (lines 115-137): load the pair (`pc.1` previous,
`pc.2` current), score both tables, compare, and tag the rows; `none`
when the comparison returned `None`. -/
def pairComparison (pc : WeeklyFile × WeeklyFile) : Option (List TaggedTrendRecord) :=
  (compare_weekly_scores (some (batch_calculate_scores pc.2.data))
      (some (batch_calculate_scores pc.1.data))).map
    (List.map (tagTrend pc.2 pc.1))

/-- `generate_weekly_trends` (lines 102-150): `None` for fewer than two
files; otherwise the tagged comparisons of all consecutive pairs,
concatenated, or `None` when every comparison returned `None`.  (Writing
the CSV is I/O, not part of the returned value.) -/
def generate_weekly_trends (file_data : List WeeklyFile) : Option (List TaggedTrendRecord) :=
  if file_data.length < 2 then none
  else
    let trends_data := (consecutivePairs file_data).filterMap pairComparison
    if trends_data.isEmpty then none
    else some trends_data.flatten

/-- `trends_df['current_week'].max()` (line 158): the largest
`current_week` label under string comparison (lexicographic by code
point, as in Python); folded from the empty string, a neutral lower
bound. -/
def latestWeek (trends : List TaggedTrendRecord) : String :=
  (trends.map (fun tr => tr.current_week)).foldl max ""

/-- Comparator for `nlargest(top_n, 'change_rate')`: descending by
`change_rate`. -/
def leGain (a b : TaggedTrendRecord) : Bool := decide (b.change_rate ≤ a.change_rate)

/-- Comparator for `nsmallest(top_n, 'change_rate')`: ascending by
`change_rate`. -/
def leLoss (a b : TaggedTrendRecord) : Bool := decide (a.change_rate ≤ b.change_rate)

/-- `get_top_gainers_losers(trends_df, top_n=10)` (lines 152-167):
`(None, None)` on a `None`/empty table; otherwise restrict to the rows
of the latest `current_week` and take the `top_n` rows of a stable
descending (resp. ascending) sort by `change_rate` — pandas
`nlargest`/`nsmallest` with the default `keep='first'`, i.e. ties kept
in input order. -/
def get_top_gainers_losers (trends_df : Option (List TaggedTrendRecord))
    (top_n : ℕ := 10) :
    Option (List TaggedTrendRecord) × Option (List TaggedTrendRecord) :=
  match trends_df with
  | none => (none, none)
  | some trends =>
    if trends.isEmpty then (none, none)
    else
      let latest := trends.filter (fun tr => tr.current_week == latestWeek trends)
      (some ((latest.mergeSort leGain).take top_n),
       some ((latest.mergeSort leLoss).take top_n))

/-- The summary record built by `generate_weekly_summary` (lines
178-190). -/
structure WeeklySummary where
  week : String
  total_artists : ℕ
  avg_score_change : ℚ
  avg_change_rate : ℚ
  artists_up : ℕ
  artists_down : ℕ
  artists_stable : ℕ
  max_gain : ℚ
  max_loss : ℚ
  top_gainer : String
  top_loser : String
  deriving Repr, DecidableEq

/-- `latest_trends['change_rate'].max()` over a slice. -/
def maxRate : List TaggedTrendRecord → ℚ
  | [] => 0
  | h :: t => t.foldl (fun acc tr => max acc tr.change_rate) h.change_rate

/-- `latest_trends['change_rate'].min()` over a slice. -/
def minRate : List TaggedTrendRecord → ℚ
  | [] => 0
  | h :: t => t.foldl (fun acc tr => min acc tr.change_rate) h.change_rate

/-- `generate_weekly_summary(trends_df)` (lines 169-197): `None` on a
`None`/empty table, otherwise the summary of the latest week's slice;
`idxmax`/`idxmin` pick the first row attaining the max/min.  (Writing
the JSON file is I/O, not part of the returned value.) -/
def generate_weekly_summary (trends_df : Option (List TaggedTrendRecord)) :
    Option WeeklySummary :=
  match trends_df with
  | none => none
  | some trends =>
    if trends.isEmpty then none
    else
      let lw := latestWeek trends
      let latest := trends.filter (fun tr => tr.current_week == lw)
      some { week := lw
             total_artists := latest.length
             avg_score_change := (latest.map (fun tr => tr.score_change)).sum / latest.length
             avg_change_rate := (latest.map (fun tr => tr.change_rate)).sum / latest.length
             artists_up := (latest.filter (fun tr => tr.trend == "up")).length
             artists_down := (latest.filter (fun tr => tr.trend == "down")).length
             artists_stable := (latest.filter (fun tr => tr.trend == "stable")).length
             max_gain := maxRate latest
             max_loss := minRate latest
             top_gainer :=
               ((latest.find? (fun tr => tr.change_rate == maxRate latest)).map
                 (fun tr => tr.artist)).getD ""
             top_loser :=
               ((latest.find? (fun tr => tr.change_rate == minRate latest)).map
                 (fun tr => tr.artist)).getD "" }

/-! ### Concrete inputs used by witnesses -/

/-- Week-1 file of the aggregator witness: one artist with Spotify
popularity 10 (total score 3). -/
def wfileW1 : WeeklyFile := ⟨"W1", "d1", [⟨"A", "E", some 10, none, none, none⟩]⟩

/-- Week-2 file of the aggregator witness: the same artist with
popularity 20 (total score 6). -/
def wfileW2 : WeeklyFile := ⟨"W2", "d2", [⟨"A", "E", some 20, none, none, none⟩]⟩

/-- The tagged trend row produced by comparing `wfileW2` against
`wfileW1`. -/
def witnessTrendRow : TaggedTrendRecord :=
  ⟨⟨"A", "E", 6, 3, 3, 100, "up"⟩, "W2", "W1", "d2", "d1"⟩

/-- A small concrete trend table used by the top-gainers witness: two
rows for the latest week `"W2"` and one for the older week `"W1"`. -/
def witnessTable : List TaggedTrendRecord :=
  [⟨⟨"A", "E", 6, 3, 3, 100, "up"⟩, "W2", "W1", "d2", "d1"⟩,
   ⟨⟨"B", "E", 4, 8, -4, -50, "down"⟩, "W2", "W1", "d2", "d1"⟩,
   ⟨⟨"A", "E", 3, 2, 1, 50, "up"⟩, "W1", "W0", "d1", "d0"⟩]

/-! ## Helper lemmas about the Score Calculator -/

theorem round2_bounds {q : ℚ} (h0 : 0 ≤ q) (h1 : q ≤ 100) :
    0 ≤ round2 q ∧ round2 q ≤ 100 := by
  unfold round2
  constructor
  · have hz : (0:ℤ) ≤ round (q * 100) := by
      rw [round_eq]
      exact Int.floor_nonneg.mpr (by linarith)
    have hq : (0:ℚ) ≤ ((round (q * 100) : ℤ) : ℚ) := by exact_mod_cast hz
    exact div_nonneg hq (by norm_num)
  · have hz : round (q * 100) ≤ 10000 := by
      rw [round_eq]
      have h2 : (⌊q * 100 + 1/2⌋ : ℤ) ≤ ⌊(10000:ℚ) + 1/2⌋ :=
        Int.floor_mono (by linarith)
      have h3 : (⌊(10000:ℚ) + 1/2⌋ : ℤ) = 10000 := by
        norm_num
      omega
    rw [div_le_iff₀ (by norm_num : (0:ℚ) < 100)]
    have : ((round (q * 100) : ℤ) : ℚ) ≤ (10000 : ℚ) := by exact_mod_cast hz
    linarith

theorem scoreBody_ok_shape {row : ArtistMetricRecord} {w : Weights} {v : ℚ}
    (h : scoreBody row w = .ok v) :
    ∃ s, v = round2 (max min_score (min max_score s)) := by
  cases hpop : row.popularity <;> cases hsp : w.spotify_popularity <;>
    cases hig : w.instagram_followers <;> cases htw : w.twitter_followers <;>
      cases hspf : w.spotify_followers <;>
        simp [scoreBody, hpop, hsp, hig, htw, hspf, lookupW, Except.bind,
          Except.map] at h <;>
        exact ⟨_, h.symm⟩

/-! ## Claims about the Score Calculator -/

/-- **C1**: for every `ArtistMetricRecord` (any combination of present,
absent, zero, or arbitrarily large numeric fields) and any weight
mapping, `calculate_artist_score` returns a total score with
`0 ≤ total_score ≤ 100` (the default `min_score`/`max_score` clamp
bounds); the caught-exception branch returns `0`, also in range. -/
theorem calculate_artist_score_in_range (row : ArtistMetricRecord) (w : Option Weights) :
    0 ≤ calculate_artist_score row w ∧ calculate_artist_score row w ≤ 100 := by
  unfold calculate_artist_score
  cases h : scoreBody row (resolveWeights w) with
  | error e => exact ⟨le_refl 0, by norm_num⟩
  | ok v =>
    obtain ⟨s, rfl⟩ := scoreBody_ok_shape h
    have h1 : (0:ℚ) ≤ max min_score (min max_score s) := by
      simp only [min_score]
      exact le_max_left 0 _
    have h2 : max min_score (min max_score s) ≤ 100 := by
      simp only [min_score, max_score]
      exact max_le (by norm_num) (min_le_left _ _)
    exact round2_bounds h1 h2

/-- **C3**: whenever the per-record computation raises internally
(`scoreBody` is not `ok`), `calculate_artist_score` returns exactly `0`
and no exception escapes; and `batch_calculate_scores` still produces
one output row per input row, each scored by the per-record function, so
one bad row never aborts the batch. -/
theorem score_error_caught (row : ArtistMetricRecord) (w : Option Weights)
    (df : List ArtistMetricRecord) (i : ℕ)
    (h : (scoreBody row (resolveWeights w)).isOk = false) :
    calculate_artist_score row w = 0 ∧
    (batch_calculate_scores df).length = df.length ∧
    (batch_calculate_scores df)[i]? =
      (df[i]?).map (fun r => { artist := r.artist, entertainment := r.entertainment,
                               total_score := calculate_artist_score r }) := by
  refine ⟨?_, by simp [batch_calculate_scores], by simp [batch_calculate_scores]⟩
  unfold calculate_artist_score
  cases hb : scoreBody row (resolveWeights w) with
  | error e => rfl
  | ok v => rw [hb] at h; simp [Except.isOk, Except.toBool] at h

/-- Witness for C3: a record scored against a weight mapping missing the
`instagram_followers` key makes the body raise `KeyError`; the caught
result is `0`, and a one-row batch still scores its row. -/
theorem score_error_caught_witness :
    calculate_artist_score ⟨"A", "E", some 80, none, none, none⟩
        (some ⟨some (3/10), none, some (1/5), some (1/4)⟩) = 0 ∧
    (batch_calculate_scores [⟨"A", "E", some 80, none, none, none⟩]).length =
      [(⟨"A", "E", some 80, none, none, none⟩ : ArtistMetricRecord)].length ∧
    (batch_calculate_scores [⟨"A", "E", some 80, none, none, none⟩])[0]? =
      (([⟨"A", "E", some 80, none, none, none⟩] : List ArtistMetricRecord)[0]?).map
        (fun r => { artist := r.artist, entertainment := r.entertainment,
                    total_score := calculate_artist_score r }) :=
  score_error_caught _ _ _ _ (by decide)

/-- **C5** (counterexample): at the claim's own example of a wrong
weight mapping — one missing the `instagram_followers` key — the
resulting `KeyError` does **not** surface to the caller: the body
raises, but the blanket `except Exception` handler absorbs it and
`calculate_artist_score` returns the ordinary score value `0`. -/
theorem wrong_weights_surface_counterexample :
    (scoreBody ⟨"A", "E", some 80, none, none, none⟩
        ⟨some (3/10), none, some (1/5), some (1/4)⟩).isOk = false ∧
    calculate_artist_score ⟨"A", "E", some 80, none, none, none⟩
        (some ⟨some (3/10), none, some (1/5), some (1/4)⟩) = 0 := by
  exact ⟨by decide, by decide⟩

/-- **C5** (amended): a caller-supplied weight mapping missing the
`instagram_followers` key (whose lookup the body always reaches when no
earlier lookup failed) never surfaces as an exception:
`calculate_artist_score` catches it and returns the normal score `0`. -/
theorem wrong_weights_absorbed (row : ArtistMetricRecord) (w : Weights)
    (h : w.instagram_followers = none) :
    calculate_artist_score row (some w) = 0 := by
  unfold calculate_artist_score resolveWeights
  cases hpop : row.popularity <;> cases hsp : w.spotify_popularity <;>
    simp [scoreBody, hpop, hsp, h, lookupW, Except.bind, Except.map]

/-- Witness for the amended C5. -/
theorem wrong_weights_absorbed_witness :
    calculate_artist_score ⟨"A", "E", some 80, none, none, none⟩
      (some ⟨some (3/10), none, some (1/5), some (1/4)⟩) = 0 :=
  wrong_weights_absorbed _ _ rfl

/-- **C6**: for every non-negative follower count `f` the per-platform
contribution before weighting is exactly `min(100, f / 10_000_000 *
100)`; consequently any two records identical except for an
above-the-cap Instagram count (`f ≥ 10_000_000` versus exactly
`10_000_000`) receive the same total score, for every weight mapping. -/
theorem follower_cap_idempotence :
    (∀ f : ℚ, 0 ≤ f → _calculate_follower_score (some f) = min 100 (f / 10000000 * 100)) ∧
    (∀ (a e : String) (pop tw sp : Option ℚ) (w : Option Weights) (f : ℚ),
      10000000 ≤ f →
      calculate_artist_score ⟨a, e, pop, some f, tw, sp⟩ w =
        calculate_artist_score ⟨a, e, pop, some 10000000, tw, sp⟩ w) := by
  constructor
  · intro f hf
    rcases eq_or_lt_of_le hf with h | h
    · rw [← h]
      norm_num [_calculate_follower_score]
    · simp [_calculate_follower_score, not_le.mpr h]
  · intro a e pop tw sp w f hf
    have h100 : _calculate_follower_score (some f) = 100 := by
      have hpos : ¬ f ≤ 0 := not_le.mpr (by linarith)
      simp only [_calculate_follower_score, if_neg hpos]
      refine min_eq_left ?_
      rw [div_mul_eq_mul_div, le_div_iff₀ (by norm_num : (0:ℚ) < 10000000)]
      linarith
    have h107 : _calculate_follower_score (some (10000000:ℚ)) = 100 := by
      norm_num [_calculate_follower_score]
    have hb : scoreBody ⟨a, e, pop, some f, tw, sp⟩ (resolveWeights w) =
        scoreBody ⟨a, e, pop, some 10000000, tw, sp⟩ (resolveWeights w) := by
      simp only [scoreBody, h100, h107]
    unfold calculate_artist_score
    rw [hb]

/-- Witness for C6: the formula at five million followers, and the cap
at twenty million versus ten million Instagram followers. -/
theorem follower_cap_idempotence_witness :
    _calculate_follower_score (some 5000000) = min 100 (5000000 / 10000000 * 100) ∧
    calculate_artist_score ⟨"A", "E", none, some 20000000, none, none⟩ none =
      calculate_artist_score ⟨"A", "E", none, some 10000000, none, none⟩ none :=
  ⟨follower_cap_idempotence.1 5000000 (by norm_num),
   follower_cap_idempotence.2 "A" "E" none none none none 20000000 (by norm_num)⟩

/-! ## Helper lemmas about the Snapshot Comparator -/

theorem trendOf_up_iff (cr : ℚ) : trendOf cr = "up" ↔ 0 < cr := by
  unfold trendOf
  rcases lt_trichotomy 0 cr with h | h | h
  · simp [h]
  · simp [← h, lt_irrefl]
  · simp [not_lt.mpr (le_of_lt h), h, lt_asymm h]

theorem trendOf_down_iff (cr : ℚ) : trendOf cr = "down" ↔ cr < 0 := by
  unfold trendOf
  rcases lt_trichotomy 0 cr with h | h | h
  · simp [h, lt_asymm h]
  · simp [← h, lt_irrefl]
  · simp [not_lt.mpr (le_of_lt h), h]

theorem trendOf_stable_iff (cr : ℚ) : trendOf cr = "stable" ↔ cr = 0 := by
  unfold trendOf
  rcases lt_trichotomy 0 cr with h | h | h
  · simp [h, ne_of_gt h]
  · simp [← h, lt_irrefl]
  · simp [not_lt.mpr (le_of_lt h), h, ne_of_lt h]

theorem findRecord_of_mem {df : List ScoredRecord} {a : String}
    (h : a ∈ df.map (fun r => r.artist)) :
    ∃ c, findRecord df a = some c ∧ c.artist = a ∧ c ∈ df := by
  induction df with
  | nil => simp at h
  | cons hd tl ih =>
    by_cases he : hd.artist = a
    · exact ⟨hd, by simp [findRecord, he], he, List.mem_cons_self _ _⟩
    · rw [List.map_cons] at h
      rcases List.mem_cons.mp h with h1 | h1
      · exact absurd h1.symm he
      · obtain ⟨c, hc1, hc2, hc3⟩ := ih h1
        refine ⟨c, ?_, hc2, List.mem_cons_of_mem _ hc3⟩
        unfold findRecord at hc1 ⊢
        rw [List.find?_cons_of_neg _ (by simp [he])]
        exact hc1

/-! ## Claims about the Snapshot Comparator -/

/-- **C2**: for every artist present in both snapshots (whose artist
names are unique per snapshot, the spec's primary-key invariant), the
comparator's output contains a `TrendRecord` for that artist whose
fields satisfy: `score_change = current_score − previous_score`;
`change_rate = score_change / previous_score * 100` when
`previous_score > 0`, `0` when both scores are zero, and the fixed
sentinel `100` when `previous_score = 0` and `current_score ≠ 0`; and
`trend = "up"/"down"/"stable"` exactly according to the sign of
`change_rate`. -/
theorem compare_trend_record_fields (cur prev : List ScoredRecord) (a : String)
    (_hcu : (cur.map (fun r => r.artist)).Nodup)
    (_hpu : (prev.map (fun r => r.artist)).Nodup)
    (hc : a ∈ cur.map (fun r => r.artist))
    (hp : a ∈ prev.map (fun r => r.artist)) :
    ∃ l tr c p, compare_weekly_scores (some cur) (some prev) = some l ∧
      tr ∈ l ∧
      findRecord cur a = some c ∧ findRecord prev a = some p ∧
      tr = mkTrendRecord c p ∧
      tr.artist = a ∧ tr.entertainment = c.entertainment ∧
      tr.current_score = c.total_score ∧ tr.previous_score = p.total_score ∧
      tr.score_change = tr.current_score - tr.previous_score ∧
      (0 < tr.previous_score →
        tr.change_rate = tr.score_change / tr.previous_score * 100) ∧
      (tr.previous_score = 0 → tr.current_score = 0 → tr.change_rate = 0) ∧
      (tr.previous_score = 0 → tr.current_score ≠ 0 → tr.change_rate = 100) ∧
      (tr.trend = "up" ↔ 0 < tr.change_rate) ∧
      (tr.trend = "down" ↔ tr.change_rate < 0) ∧
      (tr.trend = "stable" ↔ tr.change_rate = 0) := by
  obtain ⟨c, hfc, hca, _⟩ := findRecord_of_mem hc
  obtain ⟨p, hfp, hpa, _⟩ := findRecord_of_mem hp
  have hcommon : a ∈ commonArtists cur prev := by
    simp only [commonArtists, List.mem_filter, List.mem_dedup]
    refine ⟨hc, ?_⟩
    exact List.elem_iff.mpr hp
  have hne : (commonArtists cur prev).isEmpty = false := by
    cases hcc : commonArtists cur prev with
    | nil => rw [hcc] at hcommon; cases hcommon
    | cons x xs => rfl
  have hcomp : compare_weekly_scores (some cur) (some prev) =
      some ((commonArtists cur prev).filterMap (fun x =>
        match findRecord cur x, findRecord prev x with
        | some c, some p => some (mkTrendRecord c p)
        | _, _ => none)) := by
    simp only [compare_weekly_scores]
    rw [if_neg (by simp [hne])]
  refine ⟨_, mkTrendRecord c p, c, p, hcomp, ?_, hfc, hfp, rfl, ?_, rfl, rfl, rfl,
    rfl, ?_, ?_, ?_, ?_, ?_, ?_⟩
  · exact List.mem_filterMap.mpr ⟨a, hcommon, by rw [hfc, hfp]⟩
  · simp [mkTrendRecord, hca]
  · intro h
    simp only [mkTrendRecord] at h
    simp only [mkTrendRecord, changeRate]
    rw [if_pos h]
  · intro h1 h2
    simp only [mkTrendRecord] at h1 h2
    simp only [mkTrendRecord, changeRate]
    rw [h1, if_neg (lt_irrefl 0), if_pos h2]
  · intro h1 h2
    simp only [mkTrendRecord] at h1 h2
    simp only [mkTrendRecord, changeRate]
    rw [h1, if_neg (lt_irrefl 0), if_neg h2]
  · exact trendOf_up_iff _
  · exact trendOf_down_iff _
  · exact trendOf_stable_iff _

/-- Witness for C2: artist `"IU"` present in both snapshots, scores 40
then 50. -/
theorem compare_trend_record_fields_witness :
    ∃ l tr c p,
      compare_weekly_scores (some [⟨"IU", "E", 50⟩]) (some [⟨"IU", "E", 40⟩]) = some l ∧
      tr ∈ l ∧
      findRecord [⟨"IU", "E", 50⟩] "IU" = some c ∧
      findRecord [⟨"IU", "E", 40⟩] "IU" = some p ∧
      tr = mkTrendRecord c p ∧
      tr.artist = "IU" ∧ tr.entertainment = c.entertainment ∧
      tr.current_score = c.total_score ∧ tr.previous_score = p.total_score ∧
      tr.score_change = tr.current_score - tr.previous_score ∧
      (0 < tr.previous_score →
        tr.change_rate = tr.score_change / tr.previous_score * 100) ∧
      (tr.previous_score = 0 → tr.current_score = 0 → tr.change_rate = 0) ∧
      (tr.previous_score = 0 → tr.current_score ≠ 0 → tr.change_rate = 100) ∧
      (tr.trend = "up" ↔ 0 < tr.change_rate) ∧
      (tr.trend = "down" ↔ tr.change_rate < 0) ∧
      (tr.trend = "stable" ↔ tr.change_rate = 0) :=
  compare_trend_record_fields _ _ "IU" (by decide) (by decide) (by decide) (by decide)

/-- **C4** (counterexample): on two snapshots sharing no artist the
comparator returns `none` — Python `None`, a distinguished absent value
— not an empty trend sequence `some []`. -/
theorem empty_intersection_counterexample :
    compare_weekly_scores (some [⟨"A", "E", 1⟩]) (some [⟨"B", "E", 1⟩]) = none ∧
    (none : Option (List TrendRecord)) ≠ some [] :=
  ⟨by decide, by decide⟩

/-- **C4** (amended): for every pair of snapshots whose artist-name sets
have an empty intersection, the comparator returns `None` (a
distinguished absent value, handled by every caller), not an error. -/
theorem empty_intersection_returns_none (cur prev : List ScoredRecord)
    (h : ∀ a, a ∈ cur.map (fun r => r.artist) → a ∉ prev.map (fun r => r.artist)) :
    compare_weekly_scores (some cur) (some prev) = none := by
  have hcc : commonArtists cur prev = [] := by
    refine List.filter_eq_nil_iff.mpr ?_
    intro a ha
    simp only [List.elem_iff]
    exact h a (List.mem_dedup.mp ha)
  simp [compare_weekly_scores, hcc]

/-- Witness for the amended C4. -/
theorem empty_intersection_returns_none_witness :
    compare_weekly_scores (some [⟨"A", "E", 1⟩]) (some [⟨"B", "E", 1⟩]) = none :=
  empty_intersection_returns_none _ _ (by decide)

/-- **C10**: every trend-analysis operation guards its degenerate
inputs by returning `None` instead of raising: `compare_weekly_scores`
on a `None` argument, `get_top_gainers_losers` on a `None` or empty
table (returning `(None, None)`), and `generate_weekly_summary` on a
`None` or empty table. -/
theorem degenerate_input_guards :
    (∀ p : Option (List ScoredRecord), compare_weekly_scores none p = none) ∧
    (∀ c : Option (List ScoredRecord), compare_weekly_scores c none = none) ∧
    (∀ n : ℕ, get_top_gainers_losers none n = (none, none)) ∧
    (∀ n : ℕ, get_top_gainers_losers (some []) n = (none, none)) ∧
    generate_weekly_summary none = none ∧
    generate_weekly_summary (some []) = none := by
  refine ⟨fun p => ?_, fun c => ?_, fun n => rfl, fun n => rfl, rfl, rfl⟩
  · cases p <;> rfl
  · cases c <;> rfl

/-! ## Claims about the Trend Aggregator -/

/-- **C9**: with fewer than two weekly files (zero or one), the
aggregator returns the distinguishable `none` ("insufficient data")
and raises no exception. -/
theorem insufficient_snapshots_guard (file_data : List WeeklyFile)
    (h : file_data.length < 2) :
    generate_weekly_trends file_data = none := by
  unfold generate_weekly_trends
  rw [if_pos h]

/-- Witness for C9: zero files and exactly one file. -/
theorem insufficient_snapshots_guard_witness :
    generate_weekly_trends [] = none ∧
    generate_weekly_trends [⟨"W1", "d1", []⟩] = none :=
  ⟨insufficient_snapshots_guard _ (by decide),
   insufficient_snapshots_guard _ (by decide)⟩

/-- The loop `for i in range(1, n)` visits exactly the consecutive
pairs, i.e. the zip of the list with its own tail. -/
theorem consecutivePairs_eq_zip_tail {α : Type} :
    ∀ l : List α, consecutivePairs l = l.zip l.tail
  | [] => rfl
  | [_] => rfl
  | a :: b :: rest => by
      rw [consecutivePairs, consecutivePairs_eq_zip_tail (b :: rest)]
      rfl

/-- **C7**: for a chronological sequence of at least two weekly files,
the trend table produced by the aggregator is exactly the concatenation
of the (tagged) Snapshot Comparator results on the consecutive pairs
`(file[i-1], file[i])`, and every row of the table comes from comparing
one such adjacent pair, tagged with that pair's `previous_week` /
`current_week` labels — never from a non-adjacent pair. -/
theorem adjacent_pairs_only (file_data : List WeeklyFile) (l : List TaggedTrendRecord)
    (h2 : 2 ≤ file_data.length)
    (h : generate_weekly_trends file_data = some l) :
    l = ((file_data.zip file_data.tail).filterMap pairComparison).flatten ∧
    ∀ tr ∈ l, ∃ pc, pc ∈ file_data.zip file_data.tail ∧
      ∃ res, compare_weekly_scores (some (batch_calculate_scores pc.2.data))
          (some (batch_calculate_scores pc.1.data)) = some res ∧
        ∃ tr0, tr0 ∈ res ∧ tr = tagTrend pc.2 pc.1 tr0 ∧
          tr.previous_week = pc.1.week ∧ tr.current_week = pc.2.week := by
  have hflat : l = ((file_data.zip file_data.tail).filterMap pairComparison).flatten := by
    unfold generate_weekly_trends at h
    rw [if_neg (not_lt.mpr h2), consecutivePairs_eq_zip_tail] at h
    by_cases he : ((file_data.zip file_data.tail).filterMap pairComparison).isEmpty
    · rw [if_pos he] at h; cases h
    · rw [if_neg he] at h
      injection h with h
      exact h.symm
  refine ⟨hflat, ?_⟩
  intro tr htr
  rw [hflat] at htr
  obtain ⟨chunk, hchunk, htrc⟩ := List.mem_flatten.mp htr
  obtain ⟨pc, hpc, hpcc⟩ := List.mem_filterMap.mp hchunk
  unfold pairComparison at hpcc
  obtain ⟨res, hres, hmap⟩ := Option.map_eq_some'.mp hpcc
  refine ⟨pc, hpc, res, hres, ?_⟩
  rw [← hmap] at htrc
  obtain ⟨tr0, htr0, htageq⟩ := List.mem_map.mp htrc
  exact ⟨tr0, htr0, htageq.symm, by rw [← htageq]; rfl, by rw [← htageq]; rfl⟩

/-- Witness for C7: two weekly files for weeks `"W1"`, `"W2"` produce
the single tagged comparison of that adjacent pair. -/
theorem adjacent_pairs_only_witness :
    [witnessTrendRow] =
      (([wfileW1, wfileW2].zip [wfileW1, wfileW2].tail).filterMap pairComparison).flatten ∧
    ∀ tr ∈ [witnessTrendRow], ∃ pc, pc ∈ [wfileW1, wfileW2].zip [wfileW1, wfileW2].tail ∧
      ∃ res, compare_weekly_scores (some (batch_calculate_scores pc.2.data))
          (some (batch_calculate_scores pc.1.data)) = some res ∧
        ∃ tr0, tr0 ∈ res ∧ tr = tagTrend pc.2 pc.1 tr0 ∧
          tr.previous_week = pc.1.week ∧ tr.current_week = pc.2.week := by
  refine adjacent_pairs_only [wfileW1, wfileW2] [witnessTrendRow] (by decide) ?_
  have h1 : calculate_artist_score ⟨"A", "E", some 10, none, none, none⟩ = 3 := by
    simp only [calculate_artist_score, scoreBody, resolveWeights, defaultWeights, lookupW,
      _calculate_follower_score, Except.bind, Except.map, min_score, max_score]
    norm_num [round2, round_eq]
  have h2 : calculate_artist_score ⟨"A", "E", some 20, none, none, none⟩ = 6 := by
    simp only [calculate_artist_score, scoreBody, resolveWeights, defaultWeights, lookupW,
      _calculate_follower_score, Except.bind, Except.map, min_score, max_score]
    norm_num [round2, round_eq]
  have hcmp : compare_weekly_scores (some [⟨"A", "E", 6⟩]) (some [⟨"A", "E", 3⟩]) =
      some [⟨"A", "E", 6, 3, 3, 100, "up"⟩] := by
    norm_num [compare_weekly_scores, commonArtists, findRecord, mkTrendRecord,
      changeRate, trendOf, List.filterMap]
  have hb1 : batch_calculate_scores [⟨"A", "E", some 10, none, none, none⟩] =
      [⟨"A", "E", 3⟩] := by simp [batch_calculate_scores, h1]
  have hb2 : batch_calculate_scores [⟨"A", "E", some 20, none, none, none⟩] =
      [⟨"A", "E", 6⟩] := by simp [batch_calculate_scores, h2]
  simp [generate_weekly_trends, consecutivePairs, pairComparison, wfileW1, wfileW2,
    hb1, hb2, hcmp, tagTrend, witnessTrendRow]

/-! ## Helper lemmas for the top-gainers/losers extraction -/

theorem empty_string_le (s : String) : "" ≤ s := by
  rw [String.le_iff_toList_le]
  exact List.nil_le

theorem foldl_max_init_le {α : Type} [LinearOrder α] (l : List α) (init : α) :
    init ≤ l.foldl max init := by
  induction l generalizing init with
  | nil => exact le_refl _
  | cons h t ih => exact le_trans (le_max_left init h) (ih (max init h))

theorem le_foldl_max_of_mem {α : Type} [LinearOrder α] {a : α} {l : List α} (init : α)
    (ha : a ∈ l) : a ≤ l.foldl max init := by
  induction l generalizing init with
  | nil => cases ha
  | cons h t ih =>
    rcases List.mem_cons.mp ha with rfl | hm
    · exact le_trans (le_max_right init a) (foldl_max_init_le t (max init a))
    · exact ih _ hm

theorem foldl_max_eq_init_or_mem {α : Type} [LinearOrder α] (l : List α) (init : α) :
    l.foldl max init = init ∨ l.foldl max init ∈ l := by
  induction l generalizing init with
  | nil => exact Or.inl rfl
  | cons h t ih =>
    rcases ih (max init h) with hi | hi
    · rcases max_choice init h with hc | hc
      · exact Or.inl (by rw [List.foldl_cons, hi, hc])
      · refine Or.inr ?_
        rw [List.foldl_cons, hi, hc]
        exact List.mem_cons_self _ _
    · refine Or.inr (List.mem_cons_of_mem _ ?_)
      rw [List.foldl_cons]
      exact hi

theorem latestWeek_mem {l : List TaggedTrendRecord} (h : l ≠ []) :
    latestWeek l ∈ l.map (fun tr => tr.current_week) := by
  unfold latestWeek
  rcases foldl_max_eq_init_or_mem (l.map fun tr => tr.current_week) "" with hi | hi
  · obtain ⟨tr, htr⟩ := List.exists_mem_of_ne_nil l h
    have h1 : tr.current_week ≤ (l.map fun tr => tr.current_week).foldl max "" :=
      le_foldl_max_of_mem _ (List.mem_map_of_mem _ htr)
    rw [hi] at h1
    have h2 : tr.current_week = "" := le_antisymm h1 (empty_string_le _)
    rw [hi, ← h2]
    exact List.mem_map_of_mem _ htr
  · exact hi

theorem le_latestWeek_of_mem {l : List TaggedTrendRecord} {w : String}
    (h : w ∈ l.map (fun tr => tr.current_week)) : w ≤ latestWeek l :=
  le_foldl_max_of_mem _ h

theorem pair_sublist_decomp {α : Type} {x y : α} {s : List α}
    (h : List.Sublist [x, y] s) : ∃ A B C, s = A ++ x :: (B ++ y :: C) := by
  induction s with
  | nil => cases h
  | cons hd tl ih =>
    cases h with
    | cons _ h' =>
      obtain ⟨A, B, C, rfl⟩ := ih h'
      exact ⟨hd :: A, B, C, rfl⟩
    | cons₂ _ h' =>
      have hy : y ∈ tl := h'.subset (List.mem_singleton_self y)
      obtain ⟨B, C, rfl⟩ := List.append_of_mem hy
      exact ⟨[], B, C, rfl⟩

theorem take_mergeSort_props {α : Type} (le : α → α → Bool)
    (htrans : ∀ a b c, le a b = true → le b c = true → le a c = true)
    (htotal : ∀ a b, (le a b || le b a) = true)
    (latest : List α) (n : ℕ) :
    (∀ x ∈ (latest.mergeSort le).take n, x ∈ latest) ∧
    ((latest.mergeSort le).take n).length = min n latest.length ∧
    ((latest.mergeSort le).take n).Pairwise (fun a b => le a b = true) ∧
    (∀ x ∈ (latest.mergeSort le).take n, ∀ y ∈ latest, le x y = false →
      y ∈ (latest.mergeSort le).take n) ∧
    (latest.Nodup → ∀ x y, List.Sublist [x, y] latest → le x y = true →
      y ∈ (latest.mergeSort le).take n → x ∈ (latest.mergeSort le).take n) := by
  have hperm : (latest.mergeSort le).Perm latest := List.mergeSort_perm latest le
  have hsorted : (latest.mergeSort le).Pairwise (fun a b => le a b = true) :=
    List.sorted_mergeSort htrans htotal latest
  refine ⟨?_, ?_, ?_, ?_, ?_⟩
  · intro x hx
    exact hperm.mem_iff.mp (List.take_subset _ _ hx)
  · rw [List.length_take, List.length_mergeSort]
  · exact List.Pairwise.sublist (List.take_sublist n _) hsorted
  · intro x hx y hy hle
    by_contra hyn
    have hys : y ∈ latest.mergeSort le := hperm.mem_iff.mpr hy
    have hyd : y ∈ (latest.mergeSort le).drop n := by
      have hsplit := List.take_append_drop n (latest.mergeSort le)
      rw [← hsplit] at hys
      rcases List.mem_append.mp hys with h1 | h1
      · exact absurd h1 hyn
      · exact h1
    have hpw : ∀ a ∈ (latest.mergeSort le).take n,
        ∀ b ∈ (latest.mergeSort le).drop n, le a b = true := by
      have h2 : ((latest.mergeSort le).take n ++ (latest.mergeSort le).drop n).Pairwise
          (fun a b => le a b = true) := by
        rw [List.take_append_drop]
        exact hsorted
      exact (List.pairwise_append.mp h2).2.2
    have hc := hpw x hx y hyd
    rw [hle] at hc
    exact Bool.false_ne_true hc
  · intro hnd x y hsub hxy hy
    have hsub' : List.Sublist [x, y] (latest.mergeSort le) :=
      List.pair_sublist_mergeSort htrans htotal hxy hsub
    obtain ⟨A, B, C, hdecomp⟩ := pair_sublist_decomp hsub'
    have hndS : (latest.mergeSort le).Nodup := hperm.nodup_iff.mpr hnd
    by_cases hn : A.length < n
    · rw [hdecomp, List.take_append_eq_append_take]
      refine List.mem_append.mpr (Or.inr ?_)
      obtain ⟨k, hk⟩ := Nat.exists_eq_add_of_lt hn
      have hk' : n - A.length = k + 1 := by omega
      rw [hk', List.take_succ_cons]
      exact List.mem_cons_self _ _
    · exfalso
      rw [hdecomp, List.take_append_eq_append_take,
        Nat.sub_eq_zero_of_le (not_lt.mp hn), List.take_zero,
        List.append_nil] at hy
      have hyA : y ∈ A := List.take_subset _ _ hy
      rw [hdecomp, List.nodup_append] at hndS
      refine hndS.2.2 hyA ?_
      exact List.mem_cons_of_mem _ (List.mem_append.mpr
        (Or.inr (List.mem_cons_self _ _)))

theorem leGain_trans (a b c : TaggedTrendRecord) (h1 : leGain a b = true)
    (h2 : leGain b c = true) : leGain a c = true := by
  simp only [leGain, decide_eq_true_eq] at h1 h2 ⊢
  exact le_trans h2 h1

theorem leGain_total (a b : TaggedTrendRecord) : (leGain a b || leGain b a) = true := by
  rcases le_total a.change_rate b.change_rate with h | h <;>
    simp [leGain, h]

theorem leLoss_trans (a b c : TaggedTrendRecord) (h1 : leLoss a b = true)
    (h2 : leLoss b c = true) : leLoss a c = true := by
  simp only [leLoss, decide_eq_true_eq] at h1 h2 ⊢
  exact le_trans h1 h2

theorem leLoss_total (a b : TaggedTrendRecord) : (leLoss a b || leLoss b a) = true := by
  rcases le_total a.change_rate b.change_rate with h | h <;>
    simp [leLoss, h]

/-- **C8**: on a non-empty (duplicate-free) trend table,
`get_top_gainers_losers` first restricts to the rows whose
`current_week` equals the maximum week label present in the table, then
returns the `top_n` rows (default `top_n = 10`) with the largest
(resp. smallest) `change_rate`: the returned lists are slices of the
latest-week restriction, of length `min top_n |latest|`, sorted
descending (resp. ascending) by `change_rate`, they contain every row
strictly better than any returned row, and ties among equal
`change_rate` values are broken by input order with no secondary key
(an earlier row whose rate is at least — resp. at most — a chosen later
row's rate is also chosen). -/
theorem top_gainers_losers_latest_week (l : List TaggedTrendRecord) (n : ℕ)
    (hne : l ≠ []) (hnd : l.Nodup) :
    (∀ t : Option (List TaggedTrendRecord),
      get_top_gainers_losers t = get_top_gainers_losers t 10) ∧
    ∃ g ls, get_top_gainers_losers (some l) n = (some g, some ls) ∧
      latestWeek l ∈ l.map (fun tr => tr.current_week) ∧
      (∀ w ∈ l.map (fun tr => tr.current_week), w ≤ latestWeek l) ∧
      (∀ tr ∈ g, tr.current_week = latestWeek l) ∧
      (∀ tr ∈ ls, tr.current_week = latestWeek l) ∧
      (∀ tr ∈ g, tr ∈ l) ∧ (∀ tr ∈ ls, tr ∈ l) ∧
      g.length = min n (l.filter (fun tr => tr.current_week == latestWeek l)).length ∧
      ls.length = min n (l.filter (fun tr => tr.current_week == latestWeek l)).length ∧
      g.Pairwise (fun a b => b.change_rate ≤ a.change_rate) ∧
      ls.Pairwise (fun a b => a.change_rate ≤ b.change_rate) ∧
      (∀ x ∈ g, ∀ y ∈ l.filter (fun tr => tr.current_week == latestWeek l),
        x.change_rate < y.change_rate → y ∈ g) ∧
      (∀ x ∈ ls, ∀ y ∈ l.filter (fun tr => tr.current_week == latestWeek l),
        y.change_rate < x.change_rate → y ∈ ls) ∧
      (∀ x y, List.Sublist [x, y] (l.filter (fun tr => tr.current_week == latestWeek l)) →
        y.change_rate ≤ x.change_rate → y ∈ g → x ∈ g) ∧
      (∀ x y, List.Sublist [x, y] (l.filter (fun tr => tr.current_week == latestWeek l)) →
        x.change_rate ≤ y.change_rate → y ∈ ls → x ∈ ls) := by
  refine ⟨fun t => rfl, ?_⟩
  have hie : ¬ (l.isEmpty = true) := fun h => hne (List.isEmpty_iff.mp h)
  have hgl : get_top_gainers_losers (some l) n =
      (some (((l.filter (fun tr => tr.current_week == latestWeek l)).mergeSort leGain).take n),
       some (((l.filter (fun tr => tr.current_week == latestWeek l)).mergeSort leLoss).take n)) := by
    simp only [get_top_gainers_losers]
    rw [if_neg hie]
  have hndl : (l.filter (fun tr => tr.current_week == latestWeek l)).Nodup :=
    hnd.filter _
  have hmemlatest : ∀ tr, tr ∈ l.filter (fun tr => tr.current_week == latestWeek l) →
      tr ∈ l ∧ tr.current_week = latestWeek l := by
    intro tr htr
    rw [List.mem_filter] at htr
    exact ⟨htr.1, by simpa using htr.2⟩
  obtain ⟨hGsub, hGlen, hGsort, hGtop, hGstab⟩ :=
    take_mergeSort_props leGain leGain_trans leGain_total
      (l.filter (fun tr => tr.current_week == latestWeek l)) n
  obtain ⟨hLsub, hLlen, hLsort, hLtop, hLstab⟩ :=
    take_mergeSort_props leLoss leLoss_trans leLoss_total
      (l.filter (fun tr => tr.current_week == latestWeek l)) n
  refine ⟨_, _, hgl, latestWeek_mem hne, fun w hw => le_latestWeek_of_mem hw,
    fun tr htr => (hmemlatest tr (hGsub tr htr)).2,
    fun tr htr => (hmemlatest tr (hLsub tr htr)).2,
    fun tr htr => (hmemlatest tr (hGsub tr htr)).1,
    fun tr htr => (hmemlatest tr (hLsub tr htr)).1,
    hGlen, hLlen,
    hGsort.imp (fun h => by simpa [leGain] using h),
    hLsort.imp (fun h => by simpa [leLoss] using h),
    ?_, ?_, ?_, ?_⟩
  · intro x hx y hy hlt
    exact hGtop x hx y hy (decide_eq_false_iff_not.mpr (not_le.mpr hlt))
  · intro x hx y hy hlt
    exact hLtop x hx y hy (decide_eq_false_iff_not.mpr (not_le.mpr hlt))
  · intro x y hsub hle hy
    exact hGstab hndl x y hsub (decide_eq_true hle) hy
  · intro x y hsub hle hy
    exact hLstab hndl x y hsub (decide_eq_true hle) hy

/-- Witness for C8: the three-row table `witnessTable` (latest week
`"W2"`), with `top_n = 1`. -/
theorem top_gainers_losers_latest_week_witness :
    (∀ t : Option (List TaggedTrendRecord),
      get_top_gainers_losers t = get_top_gainers_losers t 10) ∧
    ∃ g ls, get_top_gainers_losers (some witnessTable) 1 = (some g, some ls) ∧
      latestWeek witnessTable ∈ witnessTable.map (fun tr => tr.current_week) ∧
      (∀ w ∈ witnessTable.map (fun tr => tr.current_week), w ≤ latestWeek witnessTable) ∧
      (∀ tr ∈ g, tr.current_week = latestWeek witnessTable) ∧
      (∀ tr ∈ ls, tr.current_week = latestWeek witnessTable) ∧
      (∀ tr ∈ g, tr ∈ witnessTable) ∧ (∀ tr ∈ ls, tr ∈ witnessTable) ∧
      g.length = min 1 (witnessTable.filter
        (fun tr => tr.current_week == latestWeek witnessTable)).length ∧
      ls.length = min 1 (witnessTable.filter
        (fun tr => tr.current_week == latestWeek witnessTable)).length ∧
      g.Pairwise (fun a b => b.change_rate ≤ a.change_rate) ∧
      ls.Pairwise (fun a b => a.change_rate ≤ b.change_rate) ∧
      (∀ x ∈ g, ∀ y ∈ witnessTable.filter
          (fun tr => tr.current_week == latestWeek witnessTable),
        x.change_rate < y.change_rate → y ∈ g) ∧
      (∀ x ∈ ls, ∀ y ∈ witnessTable.filter
          (fun tr => tr.current_week == latestWeek witnessTable),
        y.change_rate < x.change_rate → y ∈ ls) ∧
      (∀ x y, List.Sublist [x, y] (witnessTable.filter
          (fun tr => tr.current_week == latestWeek witnessTable)) →
        y.change_rate ≤ x.change_rate → y ∈ g → x ∈ g) ∧
      (∀ x y, List.Sublist [x, y] (witnessTable.filter
          (fun tr => tr.current_week == latestWeek witnessTable)) →
        x.change_rate ≤ y.change_rate → y ∈ ls → x ∈ ls) :=
  top_gainers_losers_latest_week witnessTable 1 (by decide) (by decide)
